import Mathlib

/-!
Verification of the TSC scripting bridge and its save/load contract.

The development shallowly embeds the scripting-bridge code of the
repository: the mruby value bridge of
src/tsc/src/scripting/objects/misc/mrb_level.cpp, the savegame
declarations of src/smc/src/scripting/scripting.h, the wrapper
constructors of src/tsc/src/objects/secret_area.hpp, and the
Std::Enable mixin of src/tsc/data/scripting/01_enable.rb.  Components
whose implementation files are not part of the source snapshot (the
event-dispatch macro bodies, the savegame coordinator bodies, the
level-player return stack, the JSON layer and the interpreter loop)
are modelled from the specification; each such definition says so in
its doc comment.
-/

namespace TSC

set_option autoImplicit false

/-! ## Script values and their JSON image -/

mutual

/-- A value living in the scripting runtime, as storable in the hash
passed to the save event.  Primitive JSON-compatible values (nil,
booleans, integers, strings, arrays and string-keyed hashes of such)
are distinguished from arbitrary runtime objects, which carry only
their string representation (mrb_level.cpp documents that arbitrary
objects are autoconverted to strings). -/
inductive ScriptValue : Type where
  | vnil : ScriptValue
  | vbool : Bool → ScriptValue
  | vint : Int → ScriptValue
  | vstr : String → ScriptValue
  | varr : ScriptValueList → ScriptValue
  | vmap : ScriptValueEntries → ScriptValue
  | vobj : String → ScriptValue

/-- A sequence of script values (array elements). -/
inductive ScriptValueList : Type where
  | nil : ScriptValueList
  | cons : ScriptValue → ScriptValueList → ScriptValueList

/-- String-keyed entries of a script hash; this is also the shape of
the store passed to the save and load event handlers. -/
inductive ScriptValueEntries : Type where
  | nil : ScriptValueEntries
  | cons : String → ScriptValue → ScriptValueEntries → ScriptValueEntries

end

/-- String representation of a script value, used when a non-primitive
value is degraded during JSON conversion.  Only the vobj case is ever
consulted by the encoder. -/
def stringRep : ScriptValue → String
  | ScriptValue.vnil => ""
  | ScriptValue.vbool b => if b then "true" else "false"
  | ScriptValue.vint n => toString n
  | ScriptValue.vstr s => s
  | ScriptValue.varr _ => "[...]"
  | ScriptValue.vmap _ => "{...}"
  | ScriptValue.vobj r => r

/-- A structured JSON document, the persistence format of the script
payload inside a savegame record. -/
inductive Json : Type where
  | jnull : Json
  | jbool : Bool → Json
  | jnum : Int → Json
  | jstr : String → Json
  | jarr : List Json → Json
  | jobj : List (String × Json) → Json

mutual

/-- Modelled from the spec: the payload encode step serialises the
store produced by the save handlers to a JSON-compatible structured
value (the JSON conversion layer itself is not in the source snapshot;
mrb_level.cpp lines 90-97 document its behaviour).  Primitive values
map to their JSON counterparts; arbitrary objects degrade to their
string representation. -/
def encodeValue : ScriptValue → Json
  | ScriptValue.vnil => Json.jnull
  | ScriptValue.vbool b => Json.jbool b
  | ScriptValue.vint n => Json.jnum n
  | ScriptValue.vstr s => Json.jstr s
  | ScriptValue.varr xs => Json.jarr (encodeList xs)
  | ScriptValue.vmap es => Json.jobj (encodeEntries es)
  | ScriptValue.vobj r => Json.jstr (stringRep (ScriptValue.vobj r))

/-- Encode each element of a script array. -/
def encodeList : ScriptValueList → List Json
  | ScriptValueList.nil => []
  | ScriptValueList.cons v rest => encodeValue v :: encodeList rest

/-- Encode each entry of a script hash / event store. -/
def encodeEntries : ScriptValueEntries → List (String × Json)
  | ScriptValueEntries.nil => []
  | ScriptValueEntries.cons k v rest => (k, encodeValue v) :: encodeEntries rest

end

mutual

/-- Modelled from the spec: deserialisation of the structured JSON
document back into the key-value store shape handed to the load event
handlers. -/
def decodeValue : Json → ScriptValue
  | Json.jnull => ScriptValue.vnil
  | Json.jbool b => ScriptValue.vbool b
  | Json.jnum n => ScriptValue.vint n
  | Json.jstr s => ScriptValue.vstr s
  | Json.jarr xs => ScriptValue.varr (decodeList xs)
  | Json.jobj es => ScriptValue.vmap (decodeEntries es)

/-- Decode a JSON array into a script array. -/
def decodeList : List Json → ScriptValueList
  | [] => ScriptValueList.nil
  | j :: rest => ScriptValueList.cons (decodeValue j) (decodeList rest)

/-- Decode JSON object members into script hash entries. -/
def decodeEntries : List (String × Json) → ScriptValueEntries
  | [] => ScriptValueEntries.nil
  | (k, j) :: rest => ScriptValueEntries.cons k (decodeValue j) (decodeEntries rest)

end

mutual

/-- A value is built only from JSON-representable primitives: it
contains no vobj anywhere. -/
def jsonPrimitive : ScriptValue → Bool
  | ScriptValue.vnil => true
  | ScriptValue.vbool _ => true
  | ScriptValue.vint _ => true
  | ScriptValue.vstr _ => true
  | ScriptValue.varr xs => jsonPrimitiveList xs
  | ScriptValue.vmap es => jsonPrimitiveEntries es
  | ScriptValue.vobj _ => false

/-- Every element of the array is primitive. -/
def jsonPrimitiveList : ScriptValueList → Bool
  | ScriptValueList.nil => true
  | ScriptValueList.cons v rest => jsonPrimitive v && jsonPrimitiveList rest

/-- Every value of the hash is primitive. -/
def jsonPrimitiveEntries : ScriptValueEntries → Bool
  | ScriptValueEntries.nil => true
  | ScriptValueEntries.cons _ v rest => jsonPrimitive v && jsonPrimitiveEntries rest

end

mutual

/-- Encoding then decoding is the identity on values built only from
JSON-representable primitives. -/
theorem decode_encode_value (v : ScriptValue) (h : jsonPrimitive v = true) :
    decodeValue (encodeValue v) = v :=
  match v with
  | ScriptValue.vnil => rfl
  | ScriptValue.vbool _ => rfl
  | ScriptValue.vint _ => rfl
  | ScriptValue.vstr _ => rfl
  | ScriptValue.varr xs => by
      simp only [encodeValue, decodeValue]
      exact congrArg ScriptValue.varr (decode_encode_list xs (by simpa [jsonPrimitive] using h))
  | ScriptValue.vmap es => by
      simp only [encodeValue, decodeValue]
      exact congrArg ScriptValue.vmap (decode_encode_entries es (by simpa [jsonPrimitive] using h))
  | ScriptValue.vobj _ => by simp [jsonPrimitive] at h

/-- Round trip for arrays of primitive values. -/
theorem decode_encode_list (xs : ScriptValueList) (h : jsonPrimitiveList xs = true) :
    decodeList (encodeList xs) = xs :=
  match xs with
  | ScriptValueList.nil => rfl
  | ScriptValueList.cons v rest => by
      simp only [encodeList, decodeList]
      have hv : jsonPrimitive v = true := by
        have := h; simp [jsonPrimitiveList, Bool.and_eq_true] at this; exact this.1
      have hr : jsonPrimitiveList rest = true := by
        have := h; simp [jsonPrimitiveList, Bool.and_eq_true] at this; exact this.2
      rw [decode_encode_value v hv, decode_encode_list rest hr]

/-- Round trip for stores whose values are all primitive. -/
theorem decode_encode_entries (es : ScriptValueEntries) (h : jsonPrimitiveEntries es = true) :
    decodeEntries (encodeEntries es) = es :=
  match es with
  | ScriptValueEntries.nil => rfl
  | ScriptValueEntries.cons k v rest => by
      simp only [encodeEntries, decodeEntries]
      have hv : jsonPrimitive v = true := by
        have := h; simp [jsonPrimitiveEntries, Bool.and_eq_true] at this; exact this.1
      have hr : jsonPrimitiveEntries rest = true := by
        have := h; simp [jsonPrimitiveEntries, Bool.and_eq_true] at this; exact this.2
      rw [decode_encode_value v hv, decode_encode_entries rest hr]

end

/-! ## The event store and the save event -/

/-- Write a key into the store: replace the value of an existing key
in place, append a fresh key at the end.  This is the mutation a save
handler performs on the shared hash argument. -/
def storeWrite (k : String) (v : ScriptValue) : ScriptValueEntries → ScriptValueEntries
  | ScriptValueEntries.nil => ScriptValueEntries.cons k v ScriptValueEntries.nil
  | ScriptValueEntries.cons k2 v2 rest =>
      if k2 = k then ScriptValueEntries.cons k v rest
      else ScriptValueEntries.cons k2 v2 (storeWrite k v rest)

/-- Look a key up in the store. -/
def storeLookup (k : String) : ScriptValueEntries → Option ScriptValue
  | ScriptValueEntries.nil => none
  | ScriptValueEntries.cons k2 v rest => if k2 = k then some v else storeLookup k rest

/-- A save handler mutates the shared store it receives. -/
def SaveHandler : Type := ScriptValueEntries → ScriptValueEntries

/-- Modelled from the spec: registering a handler appends it to the
ordered sequence of handlers for the event (the Eventable dispatch
implementation behind MRUBY_IMPLEMENT_EVENT(save) in mrb_level.cpp is
not in the source snapshot). -/
def registerHandler (h : SaveHandler) (tbl : List SaveHandler) : List SaveHandler :=
  tbl ++ [h]

/-- Modelled from the spec: firing the save event creates one empty
mutable store and runs every registered handler on it in registration
order; each handler sees the mutations of the earlier ones. -/
def fireSave (tbl : List SaveHandler) : ScriptValueEntries :=
  tbl.foldl (fun st h => h st) ScriptValueEntries.nil

theorem storeLookup_write_same (k : String) (v : ScriptValue) (st : ScriptValueEntries) :
    storeLookup k (storeWrite k v st) = some v :=
  match st with
  | ScriptValueEntries.nil => by simp [storeWrite, storeLookup]
  | ScriptValueEntries.cons k2 v2 rest => by
      by_cases hk : k2 = k
      · simp [storeWrite, storeLookup, hk]
      · simp [storeWrite, storeLookup, hk, storeLookup_write_same k v rest]

theorem storeLookup_write_other (k k2 : String) (v : ScriptValue) (st : ScriptValueEntries)
    (hne : k ≠ k2) : storeLookup k2 (storeWrite k v st) = storeLookup k2 st :=
  match st with
  | ScriptValueEntries.nil => by simp [storeWrite, storeLookup, hne]
  | ScriptValueEntries.cons k3 v3 rest => by
      by_cases hk : k3 = k
      · subst hk
        simp [storeWrite, storeLookup, hne]
      · simp only [storeWrite, if_neg hk]
        by_cases hk2 : k3 = k2
        · simp [storeLookup, hk2]
        · simp [storeLookup, hk2, storeLookup_write_other k k2 v rest hne]

/-! ## Savegame records and the coordinator -/

/-- Current savegame format version, SAVEGAME_VERSION in scripting.h. -/
def SAVEGAME_VERSION : Nat := 12

/-- Hard version floor, SAVEGAME_VERSION_UNSUPPORTED in scripting.h:
records with a version below it are refused. -/
def SAVEGAME_VERSION_UNSUPPORTED : Nat := 5

/-- An on-disk savegame record: format version, description header and
the opaque script payload.  The header_ok flag models whether the
structured document parses (a malformed file has header_ok false). -/
structure cSave where
  m_version : Nat
  m_description : String
  header_ok : Bool
  script_payload : Json

/-- The savegame coordinator state: the records present per slot. -/
structure cSavegame where
  slots : List (Nat × cSave)

/-- Events of the scripting bridge that coordinator operations may fire. -/
inductive FiredEvent : Type where
  | saveEvent : FiredEvent
  | loadEvent : FiredEvent
deriving DecidableEq

/-- Typed failures of loading a savegame record. -/
inductive LoadError : Type where
  | UnsupportedVersionError : LoadError
  | FutureVersionError : LoadError
  | InvalidSavegameError : LoadError
deriving DecidableEq

/-- Find the record stored at a slot. -/
def slotLookup (slot : Nat) : List (Nat × cSave) → Option cSave
  | [] => none
  | (s, save) :: rest => if s = slot then some save else slotLookup slot rest

/-- Replace or create the record at a slot. -/
def slotWrite (slot : Nat) (save : cSave) : List (Nat × cSave) → List (Nat × cSave)
  | [] => [(slot, save)]
  | (s, old) :: rest =>
      if s = slot then (slot, save) :: rest else (s, old) :: slotWrite slot save rest

/-- Modelled from the spec: the script-payload field deserialised back
into the store shape; an absent or non-mapping payload yields an empty
store, never an absent one. -/
def decodePayload : Json → ScriptValueEntries
  | Json.jobj es => decodeEntries es
  | _ => ScriptValueEntries.nil

/-- Modelled from the spec: cSavegame::Load_Game (its body is not in
the source snapshot, scripting.h declares it).  It reads the record at
the slot, validates the format version against the floor and current
version, rejects malformed documents, and on success fires the load
event with the deserialised payload.  The first component is the
outcome (the store handed to the load handlers on success), the second
the events fired. -/
def Load_Game (sg : cSavegame) (slot : Nat) :
    Except LoadError ScriptValueEntries × List FiredEvent :=
  match slotLookup slot sg.slots with
  | none => (Except.error LoadError.InvalidSavegameError, [])
  | some save =>
      if save.m_version < SAVEGAME_VERSION_UNSUPPORTED then
        (Except.error LoadError.UnsupportedVersionError, [])
      else if SAVEGAME_VERSION < save.m_version then
        (Except.error LoadError.FutureVersionError, [])
      else if save.header_ok then
        (Except.ok (decodePayload save.script_payload), [FiredEvent.loadEvent])
      else
        (Except.error LoadError.InvalidSavegameError, [])

/-- Modelled from the spec: cSavegame::Save_Game.  It fires the save
event to collect the script payload from the registered handlers,
serialises it, and writes a record carrying the current format version
into the slot. -/
def Save_Game (sg : cSavegame) (slot : Nat) (description : String)
    (tbl : List SaveHandler) : cSavegame × List FiredEvent :=
  let store := fireSave tbl
  let save : cSave :=
    { m_version := SAVEGAME_VERSION, m_description := description,
      header_ok := true, script_payload := Json.jobj (encodeEntries store) }
  ({ slots := slotWrite slot save sg.slots }, [FiredEvent.saveEvent])

/-- Modelled from the spec: cSavegame::Is_Valid (declared in
scripting.h), an existence plus header parse check only; internal
errors collapse to false, no event fires. -/
def Is_Valid (sg : cSavegame) (slot : Nat) : Bool × List FiredEvent :=
  match slotLookup slot sg.slots with
  | none => (false, [])
  | some save => (save.header_ok, [])

/-- Modelled from the spec: cSavegame::Get_Description (declared in
scripting.h), reading only the lightweight description header without
loading gameplay state; it raises the same typed failures as Load but
fires no event. -/
def Get_Description (sg : cSavegame) (slot : Nat) :
    Except LoadError String × List FiredEvent :=
  match slotLookup slot sg.slots with
  | none => (Except.error LoadError.InvalidSavegameError, [])
  | some save =>
      if save.header_ok then (Except.ok save.m_description, [])
      else (Except.error LoadError.InvalidSavegameError, [])

theorem slotLookup_write_same (slot : Nat) (save : cSave) (l : List (Nat × cSave)) :
    slotLookup slot (slotWrite slot save l) = some save := by
  induction l with
  | nil => simp [slotWrite, slotLookup]
  | cons p rest ih =>
      obtain ⟨s, old⟩ := p
      by_cases hs : s = slot
      · simp [slotWrite, slotLookup, hs]
      · simp [slotWrite, slotLookup, hs, ih]

/-! ## The level return stack -/

/-- One entry of the level return stack, cLevel_Player_Return_Entry:
a level name and an entry point name (empty strings meaning the
current level and the default start position). -/
structure cLevel_Player_Return_Entry where
  level : String
  entry : String
deriving DecidableEq

/-- The part of the level player the bridge touches: the return stack,
m_return_stack, with the most recent entry at the back. -/
structure cLevel_Player where
  m_return_stack : List cLevel_Player_Return_Entry

/-- Modelled from the spec: cLevel_Player::Push_Return appends the
entry at the back of the stack (level_player.cpp is not in the source
snapshot; mrb_level.cpp calls it). -/
def Player_Push_Return (p : cLevel_Player) (lvl ent : String) : cLevel_Player :=
  { m_return_stack := p.m_return_stack ++ [{ level := lvl, entry := ent }] }

/-- Modelled from the spec: cLevel_Player::Pop_Return removes and
returns the most recent entry; on an empty stack it reports failure
instead of raising. -/
def Player_Pop_Return (p : cLevel_Player) :
    Option (String × String) × cLevel_Player :=
  match p.m_return_stack.getLast? with
  | none => (none, p)
  | some e => (some (e.level, e.entry), { m_return_stack := p.m_return_stack.dropLast })

/-- The mruby value the pop_entry bridge method returns: a
Level::StackEntry object or nil. -/
inductive MrbRet : Type where
  | nil : MrbRet
  | stackEntry : String → String → MrbRet
deriving DecidableEq

/-- Push_Return of mrb_level.cpp: forwards the entry to the player. -/
def Push_Return (p : cLevel_Player) (lvl ent : String) : cLevel_Player :=
  Player_Push_Return p lvl ent

/-- Pop_Return of mrb_level.cpp: when the player pop succeeds a
Level::StackEntry is built from the popped strings, otherwise nil is
returned — never an exception. -/
def Pop_Return (p : cLevel_Player) : MrbRet × cLevel_Player :=
  match Player_Pop_Return p with
  | (none, p2) => (MrbRet.nil, p2)
  | (some (l, e), p2) => (MrbRet.stackEntry l e, p2)

/-! ## The interpreter session -/

/-- A statement of the embedded script fragment: define a global,
register an event handler, or raise a script-level error. -/
inductive Stmt : Type where
  | defineGlobal : String → ScriptValue → Stmt
  | registerForEvent : String → Stmt
  | raiseError : String → Stmt

/-- A code string as the interpreter sees it: either it parses into a
statement sequence or it is a syntax error. -/
inductive Code : Type where
  | prog : List Stmt → Code
  | syntaxErr : String → Code

/-- The mutable state of one interpreter session: defined globals and
the events for which handlers were registered, in order. -/
structure MRubySession where
  globals : ScriptValueEntries
  handlers : List String

/-- Execute parsed statements in order; a raised error aborts the rest
of the evaluation and yields false plus a message, keeping the state
built so far. -/
def runStmts (s : MRubySession) : List Stmt → Bool × String × MRubySession
  | [] => (true, "", s)
  | Stmt.defineGlobal n v :: rest =>
      runStmts { s with globals := storeWrite n v s.globals } rest
  | Stmt.registerForEvent e :: rest =>
      runStmts { s with handlers := s.handlers ++ [e] } rest
  | Stmt.raiseError msg :: _ => (false, "RuntimeError: " ++ msg, s)

/-- Modelled from the spec: cMRuby_Interpreter::Run_Code (scripting.h
declares it; the body is not in the source snapshot).  A syntax error
is caught and reported as false plus a human-readable message with the
session untouched; otherwise the statements run, script-raised errors
are caught at the boundary the same way, and nothing escapes to the
host. -/
def Run_Code (s : MRubySession) (code : Code) : Bool × String × MRubySession :=
  match code with
  | Code.syntaxErr msg => (false, "SyntaxError: " ++ msg, s)
  | Code.prog stmts => runStmts s stmts

/-- Whether a statement raises. -/
def stmtRaises : Stmt → Bool
  | Stmt.raiseError _ => true
  | _ => false

/-- A code string that parses and raises nothing. -/
def codeWellFormed : Code → Bool
  | Code.syntaxErr _ => false
  | Code.prog stmts => stmts.all (fun st => !stmtRaises st)

/-- A code string whose evaluation raises a script-level error: it
fails to parse, or some statement of it raises (assignments and
handler registrations never fail, so a raising statement is always
reached). -/
def codeRaises : Code → Bool
  | Code.syntaxErr _ => true
  | Code.prog stmts => stmts.any (fun st => stmtRaises st)

theorem runStmts_wellFormed (stmts : List Stmt) (s : MRubySession)
    (h : stmts.all (fun st => !stmtRaises st) = true) :
    (runStmts s stmts).1 = true := by
  induction stmts generalizing s with
  | nil => rfl
  | cons st rest ih =>
      simp only [List.all_cons, Bool.and_eq_true] at h
      cases st with
      | defineGlobal n v => exact ih _ h.2
      | registerForEvent e => exact ih _ h.2
      | raiseError msg => simp [stmtRaises] at h

theorem run_code_wellFormed (s : MRubySession) (c : Code)
    (h : codeWellFormed c = true) : (Run_Code s c).1 = true := by
  cases c with
  | syntaxErr m => simp [codeWellFormed] at h
  | prog stmts => exact runStmts_wellFormed stmts s (by simpa [codeWellFormed] using h)

theorem storeLookup_write_preserves (k n : String) (v : ScriptValue)
    (st : ScriptValueEntries) (h : storeLookup k st ≠ none) :
    storeLookup k (storeWrite n v st) ≠ none := by
  by_cases hkn : n = k
  · subst hkn
    rw [storeLookup_write_same]
    simp
  · rw [storeLookup_write_other n k v st hkn]
    exact h

theorem runStmts_preserves_state (stmts : List Stmt) (s : MRubySession) :
    (∃ l, (runStmts s stmts).2.2.handlers = s.handlers ++ l) ∧
    (∀ k, storeLookup k s.globals ≠ none →
      storeLookup k (runStmts s stmts).2.2.globals ≠ none) := by
  induction stmts generalizing s with
  | nil => exact ⟨⟨[], (List.append_nil _).symm⟩, fun k h => h⟩
  | cons st rest ih =>
      cases st with
      | defineGlobal n v =>
          obtain ⟨⟨l, hl⟩, hg⟩ := ih { s with globals := storeWrite n v s.globals }
          exact ⟨⟨l, hl⟩, fun k h =>
            hg k (storeLookup_write_preserves k n v s.globals h)⟩
      | registerForEvent e =>
          obtain ⟨⟨l, hl⟩, hg⟩ := ih { s with handlers := s.handlers ++ [e] }
          refine ⟨⟨e :: l, ?_⟩, hg⟩
          rw [show (runStmts s (Stmt.registerForEvent e :: rest)).2.2 =
            (runStmts { s with handlers := s.handlers ++ [e] } rest).2.2 from rfl,
            hl, List.append_assoc]
          simp
      | raiseError msg => exact ⟨⟨[], (List.append_nil _).symm⟩, fun k h => h⟩

theorem runStmts_raises (stmts : List Stmt) (s : MRubySession)
    (h : stmts.any (fun st => stmtRaises st) = true) :
    (runStmts s stmts).1 = false ∧ (runStmts s stmts).2.1 ≠ "" := by
  induction stmts generalizing s with
  | nil => simp at h
  | cons st rest ih =>
      cases st with
      | defineGlobal n v =>
          exact ih { s with globals := storeWrite n v s.globals }
            (by simpa [stmtRaises] using h)
      | registerForEvent e =>
          exact ih { s with handlers := s.handlers ++ [e] }
            (by simpa [stmtRaises] using h)
      | raiseError msg =>
          refine ⟨rfl, ?_⟩
          intro hcontra
          have h2 := congrArg String.length hcontra
          simp [runStmts, String.length_append] at h2
          exact absurd h2.1 (by decide)

/-! ## Wrapper objects and the mruby heap -/

/-- One mruby heap object as produced by Data_Wrap_Struct: the class
it was wrapped with and the native pointer it references. -/
structure MrbObject where
  cls : String
  nativePtr : Nat
deriving DecidableEq

/-- The mruby object heap; an object id is an index into it. -/
structure MrbHeap where
  objs : List MrbObject
deriving DecidableEq

/-- Data_Wrap_Struct allocates a fresh wrapper object on the mruby
heap carrying the class and the wrapped native pointer, and returns
its id. -/
def Data_Wrap_Struct (st : MrbHeap) (cls : String) (ptr : Nat) : Nat × MrbHeap :=
  (st.objs.length, { objs := st.objs ++ [{ cls := cls, nativePtr := ptr }] })

/-- cSecret_Area::Create_MRuby_Object of secret_area.hpp: wraps this
native object with class SecretArea via Data_Wrap_Struct. -/
def cSecret_Area.Create_MRuby_Object (self : Nat) (st : MrbHeap) : Nat × MrbHeap :=
  Data_Wrap_Struct st "SecretArea" self

/-- cSavegame::Create_MRuby_Object of scripting.h: wraps the savegame
object with class LevelClass via Data_Wrap_Struct (see the internal
note of mrb_level.cpp). -/
def cSavegame.Create_MRuby_Object (self : Nat) (st : MrbHeap) : Nat × MrbHeap :=
  Data_Wrap_Struct st "LevelClass" self

/-- The native pointer an object id references, if the id is live. -/
def wrappedNative (st : MrbHeap) (objId : Nat) : Option Nat :=
  (st.objs.get? objId).map (fun o => o.nativePtr)

/-- Modelled from the spec: the script-visible identity check on
wrapper handles — two handles compare as the same object exactly when
they reference the same underlying native object. -/
def scriptSameObject (st : MrbHeap) (o1 o2 : Nat) : Bool :=
  match st.objs.get? o1, st.objs.get? o2 with
  | some a, some b => a.nativePtr == b.nativePtr
  | _, _ => false

theorem get_append_middle {α : Type} (l : List α) (a : α) (l2 : List α) :
    (l ++ a :: l2).get? l.length = some a := by
  induction l with
  | nil => rfl
  | cons x rest ih => simpa using ih

/-! ## The Level singleton and its accessors -/

/-- The level fields the informational accessors of mrb_level.cpp
read from pActive_Level. -/
structure LevelData where
  m_author : String
  m_description : String
  m_difficulty : Nat
  m_engine_version : Nat
  m_level_filename : String
  m_script : String
  m_next_level_filename : String

/-- The engine globals the bridge consults: the currently active
level, pActive_Level, and the savegame mechanism, pSavegame, here
represented by its native pointer. -/
structure GlobalEngine where
  pActive_Level : LevelData
  pSavegamePtr : Nat

/-- Get_Author of mrb_level.cpp: reads pActive_Level regardless of the
receiver object. -/
def LevelClass.Get_Author (g : GlobalEngine) (_self : Nat) : String :=
  g.pActive_Level.m_author

/-- Get_Description of mrb_level.cpp: reads pActive_Level regardless
of the receiver object. -/
def LevelClass.Get_Description (g : GlobalEngine) (_self : Nat) : String :=
  g.pActive_Level.m_description

/-- Get_Difficulty of mrb_level.cpp: reads pActive_Level regardless of
the receiver object. -/
def LevelClass.Get_Difficulty (g : GlobalEngine) (_self : Nat) : Nat :=
  g.pActive_Level.m_difficulty

/-- Get_Engine_Version of mrb_level.cpp: reads pActive_Level
regardless of the receiver object. -/
def LevelClass.Get_Engine_Version (g : GlobalEngine) (_self : Nat) : Nat :=
  g.pActive_Level.m_engine_version

/-- Get_Filename of mrb_level.cpp: reads pActive_Level regardless of
the receiver object. -/
def LevelClass.Get_Filename (g : GlobalEngine) (_self : Nat) : String :=
  g.pActive_Level.m_level_filename

/-- The interpreter-visible class and constant tables the Init_Level
setup code manipulates, together with the object heap. -/
structure InterpState where
  heap : MrbHeap
  constants : List (String × Nat)
  definedClasses : List String
  undefNew : List String

/-- A class can be instantiated from script when it is defined and its
new class method has not been undefined. -/
def canInstantiate (st : InterpState) (cls : String) : Bool :=
  st.definedClasses.contains cls && !(st.undefNew.contains cls)

/-- Look a constant up in the interpreter constant table. -/
def constLookup (name : String) : List (String × Nat) → Option Nat
  | [] => none
  | (n, v) :: rest => if n = name then some v else constLookup name rest

/-- Init_Level of mrb_level.cpp: defines class LevelClass, binds the
constant Level to the object returned by pSavegame->Create_MRuby_Object
(so the Level constant wraps the savegame mechanism, see the internal
note), and undefines the new class method of LevelClass. -/
def Init_Level (g : GlobalEngine) (st : InterpState) : InterpState :=
  let st1 := { st with definedClasses := st.definedClasses ++ ["LevelClass"] }
  let r := cSavegame.Create_MRuby_Object g.pSavegamePtr st1.heap
  let st2 := { st1 with heap := r.2, constants := st1.constants ++ [("Level", r.1)] }
  { st2 with undefNew := st2.undefNew ++ ["LevelClass"] }

/-- A fresh interpreter state, before the wrapper classes are
registered. -/
def initialInterp : InterpState :=
  { heap := { objs := [] }, constants := [], definedClasses := [], undefNew := [] }

/-! ## The Std::Enable mixin -/

/-- The sprite state the Std::Enable mixin of 01_enable.rb touches:
current position, start position, massivity and the old_pos instance
variable (nil until disable first runs). -/
structure Sprite where
  pos : Int × Int
  startPos : Int × Int
  massiveType : String
  old_pos : Option (Int × Int)
deriving DecidableEq

/-- Sprite#warp: moves the sprite to the given position. -/
def Sprite.warp (x y : Int) (s : Sprite) : Sprite :=
  { s with pos := (x, y) }

/-- Modelled from the spec: Sprite#start_at places the sprite at the
given start position (01_enable.rb documents that on enable the
original position is restored on the sprite; the mruby Sprite binding
is not in the source snapshot). -/
def Sprite.start_at (x y : Int) (s : Sprite) : Sprite :=
  { s with startPos := (x, y), pos := (x, y) }

/-- Std::Enable#disable: remembers start_pos in old_pos, then warps
the sprite to (-100, 100) outside the visible area. -/
def Sprite.disable (s : Sprite) : Sprite :=
  Sprite.warp (-100) 100 { s with old_pos := some s.startPos }

/-- Std::Enable#enable: restores the remembered position only when
old_pos is set, and assigns the massivity only when a mass argument
was given. -/
def Sprite.enable (mass : Option String) (s : Sprite) : Sprite :=
  let s1 :=
    match s.old_pos with
    | some p => Sprite.start_at p.1 p.2 s
    | none => s
  match mass with
  | some m => { s1 with massiveType := m }
  | none => s1

/-! ## Claim theorems -/

/-- A save handler that writes first the key k1 and then the key k2
into the shared store it receives. -/
def pairWriter (k1 : String) (v1 : ScriptValue) (k2 : String) (v2 : ScriptValue) :
    SaveHandler :=
  fun st => storeWrite k2 v2 (storeWrite k1 v1 st)

/-- C1: firing the save event runs every registered handler in
registration order against one shared store, so when handler 1 writes
keys a and b and the later-registered handler 2 writes keys b and c,
the final store holds handler 1's value at a and handler 2's values at
b and c — later writers win per key, non-colliding keys are kept. -/
theorem save_event_shared_store_last_writer_wins
    (a b c : String) (va vb vb2 vc : ScriptValue)
    (hab : a ≠ b) (hac : a ≠ c) (hbc : b ≠ c) :
    storeLookup a (fireSave (registerHandler (pairWriter b vb2 c vc)
      (registerHandler (pairWriter a va b vb) []))) = some va ∧
    storeLookup b (fireSave (registerHandler (pairWriter b vb2 c vc)
      (registerHandler (pairWriter a va b vb) []))) = some vb2 ∧
    storeLookup c (fireSave (registerHandler (pairWriter b vb2 c vc)
      (registerHandler (pairWriter a va b vb) []))) = some vc := by
  have hfire : fireSave (registerHandler (pairWriter b vb2 c vc)
      (registerHandler (pairWriter a va b vb) [])) =
      storeWrite c vc (storeWrite b vb2 (storeWrite b vb
        (storeWrite a va ScriptValueEntries.nil))) := rfl
  rw [hfire]
  refine ⟨?_, ?_, ?_⟩
  · rw [storeLookup_write_other c a vc _ (Ne.symm hac),
        storeLookup_write_other b a vb2 _ (Ne.symm hab),
        storeLookup_write_other b a vb _ (Ne.symm hab),
        storeLookup_write_same]
  · rw [storeLookup_write_other c b vc _ (Ne.symm hbc), storeLookup_write_same]
  · rw [storeLookup_write_same]

/-- Witness for C1 at concrete keys and values. -/
theorem save_event_shared_store_last_writer_wins_witness :
    storeLookup "a" (fireSave (registerHandler (pairWriter "b" (ScriptValue.vint 20) "c" (ScriptValue.vint 21))
      (registerHandler (pairWriter "a" (ScriptValue.vint 10) "b" (ScriptValue.vint 11)) []))) =
        some (ScriptValue.vint 10) ∧
    storeLookup "b" (fireSave (registerHandler (pairWriter "b" (ScriptValue.vint 20) "c" (ScriptValue.vint 21))
      (registerHandler (pairWriter "a" (ScriptValue.vint 10) "b" (ScriptValue.vint 11)) []))) =
        some (ScriptValue.vint 20) ∧
    storeLookup "c" (fireSave (registerHandler (pairWriter "b" (ScriptValue.vint 20) "c" (ScriptValue.vint 21))
      (registerHandler (pairWriter "a" (ScriptValue.vint 10) "b" (ScriptValue.vint 11)) []))) =
        some (ScriptValue.vint 21) :=
  save_event_shared_store_last_writer_wins "a" "b" "c"
    (ScriptValue.vint 10) (ScriptValue.vint 11) (ScriptValue.vint 20) (ScriptValue.vint 21)
    (by decide) (by decide) (by decide)

/-- C2: loading a well-formed record with format version 4 (below the
floor of 5) fails with UnsupportedVersionError, with version 12 (the
current version) succeeds, and with version 13 (above current) fails
with FutureVersionError. -/
theorem load_version_policy (sg : cSavegame) (slot : Nat) (save : cSave)
    (hlk : slotLookup slot sg.slots = some save) (hok : save.header_ok = true) :
    (save.m_version = 4 →
      Load_Game sg slot = (Except.error LoadError.UnsupportedVersionError, [])) ∧
    (save.m_version = 12 →
      Load_Game sg slot =
        (Except.ok (decodePayload save.script_payload), [FiredEvent.loadEvent])) ∧
    (save.m_version = 13 →
      Load_Game sg slot = (Except.error LoadError.FutureVersionError, [])) := by
  unfold Load_Game
  rw [hlk]
  refine ⟨?_, ?_, ?_⟩ <;> intro hv <;>
    simp [hv, hok, SAVEGAME_VERSION, SAVEGAME_VERSION_UNSUPPORTED]

/-- A well-formed savegame record with the given format version. -/
def saveWithVersion (v : Nat) : cSave :=
  { m_version := v, m_description := "demo", header_ok := true,
    script_payload := Json.jobj [] }

/-- A coordinator state holding records of versions 4, 12 and 13 in
slots 1, 2 and 3. -/
def sgThreeSlots : cSavegame :=
  { slots := [(1, saveWithVersion 4), (2, saveWithVersion 12), (3, saveWithVersion 13)] }

/-- Witness for C2 at the three concrete versions. -/
theorem load_version_policy_witness :
    Load_Game sgThreeSlots 1 = (Except.error LoadError.UnsupportedVersionError, []) ∧
    Load_Game sgThreeSlots 2 =
      (Except.ok ScriptValueEntries.nil, [FiredEvent.loadEvent]) ∧
    Load_Game sgThreeSlots 3 = (Except.error LoadError.FutureVersionError, []) := by
  have h1 := (load_version_policy sgThreeSlots 1 (saveWithVersion 4)
    (by simp [sgThreeSlots, slotLookup]) rfl).1 rfl
  have h2 := (load_version_policy sgThreeSlots 2 (saveWithVersion 12)
    (by simp [sgThreeSlots, slotLookup]) rfl).2.1 rfl
  have h3 := (load_version_policy sgThreeSlots 3 (saveWithVersion 13)
    (by simp [sgThreeSlots, slotLookup]) rfl).2.2 rfl
  exact ⟨h1, h2, h3⟩

/-- C3: saving a slot and then loading the same slot hands the load
event handlers a store equal to the store the save handlers produced,
whenever that store is built only from JSON-representable
primitives. -/
theorem save_load_roundtrip (sg : cSavegame) (slot : Nat) (description : String)
    (tbl : List SaveHandler) (h : jsonPrimitiveEntries (fireSave tbl) = true) :
    Load_Game (Save_Game sg slot description tbl).1 slot =
      (Except.ok (fireSave tbl), [FiredEvent.loadEvent]) := by
  unfold Load_Game Save_Game
  simp only []
  rw [slotLookup_write_same]
  simp [SAVEGAME_VERSION, SAVEGAME_VERSION_UNSUPPORTED, decodePayload,
    decode_encode_entries _ h]

/-- Witness for C3 on the empty handler table, whose store is empty
and trivially primitive. -/
theorem save_load_roundtrip_witness :
    Load_Game (Save_Game { slots := [] } 0 "demo" []).1 0 =
      (Except.ok ScriptValueEntries.nil, [FiredEvent.loadEvent]) :=
  save_load_roundtrip { slots := [] } 0 "demo" [] rfl

/-- C4: the return stack is LIFO with a non-raising empty pop — after
pushing (A, x) and then (B, y) onto an empty stack, the first pop
returns the StackEntry (B, y), the second returns (A, x), and the
third pop, on the now-empty stack, returns nil instead of raising. -/
theorem return_stack_lifo (A x B y : String) :
    (Pop_Return (Push_Return (Push_Return { m_return_stack := [] } A x) B y)).1 =
      MrbRet.stackEntry B y ∧
    (Pop_Return (Pop_Return (Push_Return (Push_Return { m_return_stack := [] } A x) B y)).2).1 =
      MrbRet.stackEntry A x ∧
    (Pop_Return (Pop_Return (Pop_Return
        (Push_Return (Push_Return { m_return_stack := [] } A x) B y)).2).2).1 =
      MrbRet.nil ∧
    (Pop_Return (Pop_Return (Pop_Return
        (Push_Return (Push_Return { m_return_stack := [] } A x) B y)).2).2).2.m_return_stack
      = [] := by
  refine ⟨rfl, rfl, rfl, rfl⟩

/-- C5: for every session and every code string whose evaluation
raises a script-level error — a failed parse as well as a runtime
raise — Run_Code returns false together with a non-empty
human-readable message and never lets the error escape to the host
(it is a total function); a syntax error leaves the session exactly
as it was, a runtime raise aborts only the failing evaluation while
every previously registered handler stays registered in order and
every previously defined global stays defined; a subsequent unrelated
well-formed Run_Code call in the same session still succeeds. -/
theorem run_code_error_recovery (s : MRubySession) (c : Code) (code2 : Code)
    (hraises : codeRaises c = true) :
    (Run_Code s c).1 = false ∧
    (Run_Code s c).2.1 ≠ "" ∧
    (∀ msg, c = Code.syntaxErr msg → (Run_Code s c).2.2 = s) ∧
    (∃ l, (Run_Code s c).2.2.handlers = s.handlers ++ l) ∧
    (∀ k, storeLookup k s.globals ≠ none →
      storeLookup k (Run_Code s c).2.2.globals ≠ none) ∧
    (codeWellFormed code2 = true →
      (Run_Code (Run_Code s c).2.2 code2).1 = true) := by
  cases c with
  | syntaxErr msg =>
      refine ⟨rfl, ?_, fun _ _ => rfl, ⟨[], (List.append_nil _).symm⟩, fun k h => h, ?_⟩
      · intro hcontra
        have h2 := congrArg String.length hcontra
        simp [Run_Code, String.length_append] at h2
        exact absurd h2.1 (by decide)
      · intro h
        exact run_code_wellFormed s code2 h
  | prog stmts =>
      have hfail := runStmts_raises stmts s (by simpa [codeRaises] using hraises)
      have hpres := runStmts_preserves_state stmts s
      refine ⟨hfail.1, hfail.2, ?_, hpres.1, hpres.2,
        fun h => run_code_wellFormed _ code2 h⟩
      intro msg h
      exact Code.noConfusion h

/-- A demo session already holding a defined global and a registered
handler from earlier evaluations. -/
def sessionDemo : MRubySession :=
  { globals := storeWrite "g0" ScriptValue.vnil ScriptValueEntries.nil,
    handlers := ["save"] }

/-- A well-formed demo code string. -/
def codeDemo : Code :=
  Code.prog [Stmt.defineGlobal "counter" (ScriptValue.vint 0),
             Stmt.registerForEvent "save"]

/-- A demo code string that raises a runtime error mid-evaluation. -/
def codeRaiseDemo : Code :=
  Code.prog [Stmt.defineGlobal "counter" (ScriptValue.vint 1),
             Stmt.raiseError "boom"]

/-- Witness for C5 at a concrete session, exercising both a syntax
error and a runtime raise, with a concrete follow-up code string. -/
theorem run_code_error_recovery_witness :
    (Run_Code sessionDemo (Code.syntaxErr "unexpected end")).1 = false ∧
    (Run_Code sessionDemo (Code.syntaxErr "unexpected end")).2.1 ≠ "" ∧
    (Run_Code sessionDemo (Code.syntaxErr "unexpected end")).2.2 = sessionDemo ∧
    (Run_Code sessionDemo codeRaiseDemo).1 = false ∧
    (Run_Code sessionDemo codeRaiseDemo).2.1 ≠ "" ∧
    (∃ l, (Run_Code sessionDemo codeRaiseDemo).2.2.handlers = sessionDemo.handlers ++ l) ∧
    storeLookup "g0" (Run_Code sessionDemo codeRaiseDemo).2.2.globals ≠ none ∧
    (Run_Code (Run_Code sessionDemo codeRaiseDemo).2.2 codeDemo).1 = true := by
  obtain ⟨a1, a2, a3, _, _, _⟩ :=
    run_code_error_recovery sessionDemo (Code.syntaxErr "unexpected end") codeDemo rfl
  obtain ⟨b1, b2, _, b4, b5, b6⟩ :=
    run_code_error_recovery sessionDemo codeRaiseDemo codeDemo rfl
  refine ⟨a1, a2, a3 "unexpected end" rfl, b1, b2, b4, ?_, b6 rfl⟩
  exact b5 "g0" (by simp [sessionDemo, storeWrite, storeLookup])

/-- C6: a value stored in the save store that is not a
JSON-representable primitive (an arbitrary runtime object) is not
serialised structurally; the payload encode step degrades it to its
string representation, wherever it sits in the store. -/
theorem encode_nonprimitive_stringifies (k r : String) (rest : ScriptValueEntries) :
    jsonPrimitive (ScriptValue.vobj r) = false ∧
    encodeValue (ScriptValue.vobj r) = Json.jstr (stringRep (ScriptValue.vobj r)) ∧
    encodeEntries (ScriptValueEntries.cons k (ScriptValue.vobj r) rest) =
      (k, Json.jstr (stringRep (ScriptValue.vobj r))) :: encodeEntries rest :=
  ⟨rfl, rfl, rfl⟩

/-- C7: Is_Valid yields false on an absent slot and on a record whose
header fails to parse, always delivering a boolean rather than an
exception, and neither Is_Valid nor Get_Description fires any
save/load event. -/
theorem is_valid_no_events (sg : cSavegame) (slot : Nat) :
    (slotLookup slot sg.slots = none → (Is_Valid sg slot).1 = false) ∧
    (∀ save, slotLookup slot sg.slots = some save → save.header_ok = false →
      (Is_Valid sg slot).1 = false) ∧
    (Is_Valid sg slot).2 = [] ∧
    (Get_Description sg slot).2 = [] := by
  refine ⟨?_, ?_, ?_, ?_⟩
  · intro hnone
    simp [Is_Valid, hnone]
  · intro save hsome hbad
    simp [Is_Valid, hsome, hbad]
  · unfold Is_Valid
    cases slotLookup slot sg.slots <;> rfl
  · unfold Get_Description
    cases h : slotLookup slot sg.slots with
    | none => rfl
    | some save => by_cases hh : save.header_ok <;> simp [hh]

/-- A savegame record whose header fails to parse. -/
def malformedSave : cSave :=
  { m_version := 12, m_description := "demo", header_ok := false,
    script_payload := Json.jnull }

/-- A coordinator state holding only a record with an unparsable
header in slot 1. -/
def sgMalformed : cSavegame :=
  { slots := [(1, malformedSave)] }

/-- Witness for C7 on an absent slot and on a malformed record. -/
theorem is_valid_no_events_witness :
    (Is_Valid sgMalformed 2).1 = false ∧
    (Is_Valid sgMalformed 1).1 = false ∧
    (Is_Valid sgMalformed 2).2 = [] ∧
    (Get_Description sgMalformed 2).2 = [] := by
  obtain ⟨habsent, hbad, htrace, hdesc⟩ := is_valid_no_events sgMalformed 2
  obtain ⟨_, hbad1, _, _⟩ := is_valid_no_events sgMalformed 1
  refine ⟨habsent (by simp [sgMalformed, slotLookup]), ?_, htrace, hdesc⟩
  exact hbad1 malformedSave (by simp [sgMalformed, slotLookup]) rfl

theorem data_wrap_twice (st : MrbHeap) (cls : String) (ptr : Nat) :
    wrappedNative (Data_Wrap_Struct (Data_Wrap_Struct st cls ptr).2 cls ptr).2
      (Data_Wrap_Struct st cls ptr).1 = some ptr ∧
    wrappedNative (Data_Wrap_Struct (Data_Wrap_Struct st cls ptr).2 cls ptr).2
      (Data_Wrap_Struct (Data_Wrap_Struct st cls ptr).2 cls ptr).1 = some ptr ∧
    scriptSameObject (Data_Wrap_Struct (Data_Wrap_Struct st cls ptr).2 cls ptr).2
      (Data_Wrap_Struct st cls ptr).1
      (Data_Wrap_Struct (Data_Wrap_Struct st cls ptr).2 cls ptr).1 = true := by
  have hget1 : ((st.objs ++ [MrbObject.mk cls ptr]) ++ [MrbObject.mk cls ptr]).get?
      st.objs.length = some (MrbObject.mk cls ptr) := by
    rw [List.append_assoc]
    exact get_append_middle st.objs (MrbObject.mk cls ptr) [MrbObject.mk cls ptr]
  have hget2 : ((st.objs ++ [MrbObject.mk cls ptr]) ++ [MrbObject.mk cls ptr]).get?
      (st.objs ++ [MrbObject.mk cls ptr]).length = some (MrbObject.mk cls ptr) :=
    get_append_middle (st.objs ++ [MrbObject.mk cls ptr]) (MrbObject.mk cls ptr) []
  refine ⟨?_, ?_, ?_⟩
  · simp only [Data_Wrap_Struct, wrappedNative]
    rw [hget1]
    rfl
  · simp only [Data_Wrap_Struct, wrappedNative]
    rw [hget2]
    rfl
  · simp only [Data_Wrap_Struct, scriptSameObject]
    rw [hget1, hget2]
    simp

/-- C8: creating the script handle twice for the same native object in
the same session yields two handles that reference the same underlying
native object and compare as the same object under the script-visible
identity check, both for cSecret_Area and for cSavegame wrappers. -/
theorem create_mruby_object_idempotent (st : MrbHeap) (area sg : Nat) :
    (wrappedNative (cSecret_Area.Create_MRuby_Object area
        (cSecret_Area.Create_MRuby_Object area st).2).2
      (cSecret_Area.Create_MRuby_Object area st).1 = some area ∧
     wrappedNative (cSecret_Area.Create_MRuby_Object area
        (cSecret_Area.Create_MRuby_Object area st).2).2
      (cSecret_Area.Create_MRuby_Object area
        (cSecret_Area.Create_MRuby_Object area st).2).1 = some area ∧
     scriptSameObject (cSecret_Area.Create_MRuby_Object area
        (cSecret_Area.Create_MRuby_Object area st).2).2
      (cSecret_Area.Create_MRuby_Object area st).1
      (cSecret_Area.Create_MRuby_Object area
        (cSecret_Area.Create_MRuby_Object area st).2).1 = true) ∧
    (wrappedNative (cSavegame.Create_MRuby_Object sg
        (cSavegame.Create_MRuby_Object sg st).2).2
      (cSavegame.Create_MRuby_Object sg st).1 = some sg ∧
     wrappedNative (cSavegame.Create_MRuby_Object sg
        (cSavegame.Create_MRuby_Object sg st).2).2
      (cSavegame.Create_MRuby_Object sg
        (cSavegame.Create_MRuby_Object sg st).2).1 = some sg ∧
     scriptSameObject (cSavegame.Create_MRuby_Object sg
        (cSavegame.Create_MRuby_Object sg st).2).2
      (cSavegame.Create_MRuby_Object sg st).1
      (cSavegame.Create_MRuby_Object sg
        (cSavegame.Create_MRuby_Object sg st).2).1 = true) :=
  ⟨data_wrap_twice st "SecretArea" area, data_wrap_twice st "LevelClass" sg⟩

/-- C9: after Init_Level runs, the Level constant is bound to the only
LevelClass instance on the heap, that instance wraps the savegame
object, new is undefined on LevelClass so scripts cannot create
another, and the informational accessors read the currently active
level at call time whatever object they are invoked on. -/
theorem level_constant_unique_wraps_savegame (g : GlobalEngine) :
    constLookup "Level" (Init_Level g initialInterp).constants = some 0 ∧
    (Init_Level g initialInterp).heap.objs.get? 0 =
      some { cls := "LevelClass", nativePtr := g.pSavegamePtr } ∧
    ((Init_Level g initialInterp).heap.objs.filter
      (fun o => o.cls == "LevelClass")).length = 1 ∧
    canInstantiate (Init_Level g initialInterp) "LevelClass" = false ∧
    (∀ self, LevelClass.Get_Author g self = g.pActive_Level.m_author) ∧
    (∀ self, LevelClass.Get_Description g self = g.pActive_Level.m_description) ∧
    (∀ self, LevelClass.Get_Difficulty g self = g.pActive_Level.m_difficulty) ∧
    (∀ self, LevelClass.Get_Engine_Version g self = g.pActive_Level.m_engine_version) ∧
    (∀ self, LevelClass.Get_Filename g self = g.pActive_Level.m_level_filename) := by
  refine ⟨rfl, rfl, ?_, rfl, fun _ => rfl, fun _ => rfl, fun _ => rfl, fun _ => rfl,
    fun _ => rfl⟩
  simp [Init_Level, initialInterp, cSavegame.Create_MRuby_Object, Data_Wrap_Struct]

/-- C10: in the Std::Enable mixin, enable on a sprite that was never
disabled (old_pos still unset) leaves the position and the start
position unchanged, and enable with no mass argument leaves the
massivity unchanged on every sprite. -/
theorem enable_guarded (s : Sprite) (mass : Option String) (h : s.old_pos = none) :
    (Sprite.enable mass s).pos = s.pos ∧
    (Sprite.enable mass s).startPos = s.startPos ∧
    (∀ s2 : Sprite, (Sprite.enable none s2).massiveType = s2.massiveType) := by
  refine ⟨?_, ?_, ?_⟩
  · cases mass <;> simp [Sprite.enable, h]
  · cases mass <;> simp [Sprite.enable, h]
  · intro s2
    cases h2 : s2.old_pos <;> simp [Sprite.enable, Sprite.start_at, h2]

/-- A sprite that was never disabled. -/
def spriteDemo : Sprite :=
  { pos := (3, 4), startPos := (1, 2), massiveType := "massive", old_pos := none }

/-- Witness for C10 on a concrete never-disabled sprite. -/
theorem enable_guarded_witness :
    (Sprite.enable (some "passive") spriteDemo).pos = spriteDemo.pos ∧
    (Sprite.enable (some "passive") spriteDemo).startPos = spriteDemo.startPos ∧
    (∀ s2 : Sprite, (Sprite.enable none s2).massiveType = s2.massiveType) :=
  enable_guarded spriteDemo (some "passive") rfl

end TSC
